import Mathlib

/-!
Shallow embedding of the voting backend in `src/server.js`.

The Firestore collections `voters` and `candidates` are modelled as
association lists keyed by document id. The body of `db.runTransaction`
commits or aborts atomically, so it is modelled as a pure function from a
store snapshot to a result together with the committed store; an abort
returns the snapshot unchanged. The Express middleware chain of each route
is folded into one function per route. `admin.auth().verifyIdToken` is an
external collaborator and is passed in as an abstract `verify` function.
-/

namespace Voting

/-- A stored voter document (collection `voters`, keyed by the Firebase
uid). Fields mirror `transaction.set(voterRef, ...)` in `server.js`; the
server-assigned timestamp is modelled as a natural number supplied at
commit time. -/
structure VoterRecord where
  name : String
  candidateId : String
  linkedInProfile : Option String
  votedAt : Nat
deriving DecidableEq

/-- A stored candidate document (collection `candidates`). Vote counts are
seeded out of band, so they are modelled as integers. -/
structure CandidateRecord where
  name : String
  votes : Int
deriving DecidableEq

/-- Point read of a document by id (the first entry with the key wins). -/
def lookupDoc {α : Type} : List (String × α) → String → Option α
  | [], _ => none
  | (k, v) :: rest, key => if k = key then some v else lookupDoc rest key

/-- Point write of a document by id: replaces the first entry carrying the
key, or appends a fresh entry. This models both `transaction.set` and
`transaction.update` on a document known to exist. -/
def setDoc {α : Type} : List (String × α) → String → α → List (String × α)
  | [], key, v => [(key, v)]
  | (k, w) :: rest, key, v =>
      if k = key then (key, v) :: rest else (k, w) :: setDoc rest key v

/-- The database: the two Firestore collections used by the backend. -/
structure Store where
  voters : List (String × VoterRecord)
  candidates : List (String × CandidateRecord)
deriving DecidableEq

/-- Outcome of the voting transaction body. -/
inductive VoteResult
  | success
  | alreadyVoted
  | candidateNotFound
deriving DecidableEq

/-- The voting transaction (the `db.runTransaction` body of
`POST /api/vote`): read the voter doc keyed by the uid and abort with
`alreadyVoted` if it exists; read the candidate doc and abort with
`candidateNotFound` if it is absent; otherwise create the voter record and
increment the candidate's `votes` field by 1, committing both writes
together. Abort paths leave the store untouched. -/
def castVote (s : Store) (subjectId nameField candidateId : String)
    (profile : Option String) (now : Nat) : VoteResult × Store :=
  match lookupDoc s.voters subjectId with
  | some _ => (VoteResult.alreadyVoted, s)
  | none =>
    match lookupDoc s.candidates candidateId with
    | none => (VoteResult.candidateNotFound, s)
    | some c =>
      (VoteResult.success,
        { voters := setDoc s.voters subjectId
            { name := nameField, candidateId := candidateId,
              linkedInProfile := profile, votedAt := now },
          candidates := setDoc s.candidates candidateId
            { name := c.name, votes := c.votes + 1 } })

/-- Record existence for subject `S`; the record's key is the uid itself,
so this is also the system's notion of `has voted`. -/
def hasVoted (s : Store) (S : String) : Bool :=
  (lookupDoc s.voters S).isSome

/-- Decoded Firebase id token: uid, optional `displayName` claim and the
`admin` claim. -/
structure AuthToken where
  uid : String
  displayName : Option String
  admin : Bool
deriving DecidableEq

/-- An HTTP response reduced to status code and message body. -/
structure HttpResponse where
  status : Nat
  message : String
deriving DecidableEq

/-- JavaScript `x || d` for a string-or-undefined value: both `undefined`
and the empty string are falsy. -/
def jsStringOr (v : Option String) (d : String) : String :=
  match v with
  | none => d
  | some x => if x = "" then d else x

/-- JavaScript `linkedInProfile || null`: undefined, and also the empty
string, collapse to null. -/
def jsProfileOrNull (p : Option String) : Option String :=
  match p with
  | none => none
  | some x => if x = "" then none else some x

/-- The check `authHeader.startsWith("Bearer ")` of the `verifyUser`
middleware. -/
def bearerOk (h : String) : Bool :=
  "Bearer ".data.isPrefixOf h.data

/-- The extraction `authHeader.split("Bearer ")[1]` for a header in bearer
form: the text after the `Bearer ` marker. -/
def bearerToken (h : String) : String :=
  String.mk (h.data.drop "Bearer ".data.length)

/-- `POST /api/vote`: the `verifyUser` middleware followed by the route
handler. `verify` abstracts `admin.auth().verifyIdToken`; `none` means the
token is rejected, which the middleware turns into 401. The thrown domain
errors of the transaction reappear, through the route's catch, as 400
responses carrying the error message. -/
def handleVote (verify : String → Option AuthToken) (authHeader : Option String)
    (bodyCandidateId bodyLinkedInProfile : Option String)
    (s : Store) (now : Nat) : HttpResponse × Store :=
  match authHeader with
  | none => (⟨401, "Unauthorized"⟩, s)
  | some h =>
    if bearerOk h then
      match verify (bearerToken h) with
      | none => (⟨401, "Invalid or expired token"⟩, s)
      | some user =>
        let nm := jsStringOr user.displayName "Anonymous"
        match bodyCandidateId with
        | none => (⟨400, "Candidate ID required"⟩, s)
        | some cid =>
          if cid = "" then (⟨400, "Candidate ID required"⟩, s)
          else
            match castVote s user.uid nm cid (jsProfileOrNull bodyLinkedInProfile) now with
            | (VoteResult.success, s1) => (⟨200, "Vote successful!"⟩, s1)
            | (VoteResult.alreadyVoted, s1) => (⟨400, "You have already voted"⟩, s1)
            | (VoteResult.candidateNotFound, s1) => (⟨400, "Candidate not found"⟩, s1)
    else (⟨401, "Unauthorized"⟩, s)

/-- `POST /make-admin`: `verifyUser`, then `requireAdmin` (403 unless the
token carries the admin claim), then `setCustomUserClaims(uid, ...)`
modelled as a write to the identity provider's claim table. -/
def handleMakeAdmin (verify : String → Option AuthToken) (authHeader : Option String)
    (bodyUid : Option String) (claims : List (String × Bool)) :
    HttpResponse × List (String × Bool) :=
  match authHeader with
  | none => (⟨401, "Unauthorized"⟩, claims)
  | some h =>
    if bearerOk h then
      match verify (bearerToken h) with
      | none => (⟨401, "Invalid or expired token"⟩, claims)
      | some user =>
        if user.admin then
          match bodyUid with
          | none => (⟨400, "UID required"⟩, claims)
          | some uid =>
            if uid = "" then (⟨400, "UID required"⟩, claims)
            else (⟨200, "User is now admin!"⟩, setDoc claims uid true)
        else (⟨403, "Access denied (Admin only)"⟩, claims)
    else (⟨401, "Unauthorized"⟩, claims)

/-- `GET /api/candidates`: snapshot read mapping each stored candidate doc
to its id, display name and vote count. -/
def listCandidates (s : Store) : List (String × String × Int) :=
  s.candidates.map (fun e => (e.1, e.2.name, e.2.votes))

/-- A thrown JavaScript error, reduced to its `message` property. -/
structure JsError where
  message : String
deriving DecidableEq

/-- The two domain rejections the voting transaction throws. -/
def isDomainRejection (e : JsError) : Bool :=
  decide (e.message = "You have already voted") ||
    decide (e.message = "Candidate not found")

/-- The catch of `POST /api/vote`: every error becomes
`res.status(400)` with body message `error.message || "Voting failed"`. -/
def voteErrorResponse (e : JsError) : HttpResponse :=
  ⟨400, jsStringOr (some e.message) "Voting failed"⟩

/-- Error body of the two read routes, which embed `error.message` in an
`error` field alongside a fixed headline message. -/
structure ErrorBodyResponse where
  status : Nat
  message : String
  error : String
deriving DecidableEq

/-- The catch of `GET /api/candidates`. -/
def candidatesErrorResponse (e : JsError) : ErrorBodyResponse :=
  ⟨500, "Error fetching candidates", e.message⟩

/-- The catch of `GET /api/voters`. -/
def votersErrorResponse (e : JsError) : ErrorBodyResponse :=
  ⟨500, "Error fetching voters", e.message⟩

/-- One serialized voting transaction. Firestore serializes transactions,
so any concurrent schedule of vote attempts executes as some sequence of
these steps; read-only routes do not change the store. -/
inductive Step : Store → Store → Prop
  | vote (s : Store) (subjectId nameField candidateId : String)
      (profile : Option String) (now : Nat) :
      Step s (castVote s subjectId nameField candidateId profile now).2

/-- Stores reachable from `s0` by any sequence of voting transactions. -/
abbrev Reachable : Store → Store → Prop :=
  Relation.ReflTransGen Step

/-- Arguments of one `castVote` invocation, for whole-trace statements. -/
structure VoteCall where
  subjectId : String
  nameField : String
  candidateId : String
  profile : Option String
  now : Nat
deriving DecidableEq

/-- Run a sequence of voting transactions, collecting each call's result. -/
def runCalls : Store → List VoteCall → List (VoteCall × VoteResult) × Store
  | s, [] => ([], s)
  | s, c :: rest =>
    let r := castVote s c.subjectId c.nameField c.candidateId c.profile c.now
    let t := runCalls r.2 rest
    ((c, r.1) :: t.1, t.2)

/-- Whether a trace entry is a successful cast by subject `S`. -/
def isSuccessFor (S : String) (cr : VoteCall × VoteResult) : Bool :=
  decide (cr.1.subjectId = S) && decide (cr.2 = VoteResult.success)

/-- Number of successful casts attributed to subject `S` in a trace. -/
def successesFor (S : String) : List (VoteCall × VoteResult) → Nat
  | [] => 0
  | cr :: rs => (if isSuccessFor S cr then 1 else 0) + successesFor S rs

/-- Seed store of the spec's scenario: candidates `A` and `B` with zero
votes, no voters. -/
def seedStore : Store :=
  ⟨[], [("A", ⟨"Alice", 0⟩), ("B", ⟨"Bob", 0⟩)]⟩

/-- The store after subject `u1` successfully votes for `A`. -/
def votedStore : Store :=
  (castVote seedStore "u1" "User One" "A" none 0).2

/-! Lemmas about the document primitives. -/

theorem lookupDoc_setDoc_self {α : Type} (l : List (String × α)) (k : String) (v : α) :
    lookupDoc (setDoc l k v) k = some v := by
  induction l with
  | nil => simp [setDoc, lookupDoc]
  | cons hd tl ih =>
    obtain ⟨k1, w⟩ := hd
    by_cases h : k1 = k
    · simp [setDoc, h, lookupDoc]
    · simp [setDoc, h, lookupDoc, ih]

theorem lookupDoc_setDoc_ne {α : Type} (l : List (String × α)) (k k1 : String) (v : α)
    (h : k1 ≠ k) : lookupDoc (setDoc l k v) k1 = lookupDoc l k1 := by
  induction l with
  | nil => simp [setDoc, lookupDoc, Ne.symm h]
  | cons hd tl ih =>
    obtain ⟨k2, w⟩ := hd
    by_cases h2 : k2 = k
    · subst h2
      simp [setDoc, lookupDoc, Ne.symm h]
    · simp [setDoc, h2, lookupDoc, ih]

theorem mem_setDoc {α : Type} {l : List (String × α)} {k : String} {v : α} {x : String × α}
    (h : x ∈ setDoc l k v) : x = (k, v) ∨ x ∈ l := by
  induction l with
  | nil => simpa [setDoc] using h
  | cons hd tl ih =>
    obtain ⟨k1, w⟩ := hd
    by_cases h1 : k1 = k
    · subst h1
      simp [setDoc] at h
      rcases h with h | h
      · exact Or.inl h
      · exact Or.inr (List.mem_cons_of_mem _ h)
    · simp only [setDoc, if_neg h1, List.mem_cons] at h
      rcases h with h | h
      · exact Or.inr (by simp [h])
      · rcases ih h with h2 | h2
        · exact Or.inl h2
        · exact Or.inr (List.mem_cons_of_mem _ h2)

theorem lookupDoc_mem {α : Type} {l : List (String × α)} {k : String} {v : α}
    (h : lookupDoc l k = some v) : (k, v) ∈ l := by
  induction l with
  | nil => simp [lookupDoc] at h
  | cons hd tl ih =>
    obtain ⟨k1, w⟩ := hd
    by_cases h1 : k1 = k
    · subst h1
      simp [lookupDoc] at h
      subst h
      exact List.mem_cons_self _ _
    · simp only [lookupDoc, if_neg h1] at h
      exact List.mem_cons_of_mem _ (ih h)

theorem keys_setDoc_of_lookup_some {α : Type} (l : List (String × α)) (k : String)
    (v v0 : α) (h : lookupDoc l k = some v0) :
    (setDoc l k v).map Prod.fst = l.map Prod.fst := by
  induction l with
  | nil => simp [lookupDoc] at h
  | cons hd tl ih =>
    obtain ⟨k1, w⟩ := hd
    by_cases h1 : k1 = k
    · subst h1
      simp [setDoc]
    · simp only [lookupDoc, if_neg h1] at h
      simp [setDoc, h1, ih h]

theorem lookupDoc_eq_none_iff {α : Type} (l : List (String × α)) (k : String) :
    lookupDoc l k = none ↔ k ∉ l.map Prod.fst := by
  induction l with
  | nil => simp [lookupDoc]
  | cons hd tl ih =>
    obtain ⟨k1, w⟩ := hd
    by_cases h1 : k1 = k
    · subst h1
      simp [lookupDoc]
    · simp [lookupDoc, h1, ih, Ne.symm h1]

theorem keys_setDoc_nodup {α : Type} (l : List (String × α)) (k : String) (v : α)
    (h : (l.map Prod.fst).Nodup) : ((setDoc l k v).map Prod.fst).Nodup := by
  induction l with
  | nil => simp [setDoc]
  | cons hd tl ih =>
    obtain ⟨k1, w⟩ := hd
    simp only [List.map_cons, List.nodup_cons] at h
    by_cases h1 : k1 = k
    · subst h1
      simpa [setDoc] using h
    · simp only [setDoc, if_neg h1, List.map_cons, List.nodup_cons]
      refine ⟨?_, ih h.2⟩
      intro hmem
      rcases List.mem_map.1 hmem with ⟨x, hx, hfst⟩
      rcases mem_setDoc hx with h2 | h2
      · subst h2
        exact h1 hfst.symm
      · exact h.1 (List.mem_map.2 ⟨x, h2, hfst⟩)

/-! Case lemmas for `castVote`. -/

theorem castVote_of_hasVoted {s : Store} {S : String} (h : hasVoted s S = true)
    (n c : String) (p : Option String) (t : Nat) :
    castVote s S n c p t = (VoteResult.alreadyVoted, s) := by
  unfold hasVoted at h
  cases hv : lookupDoc s.voters S with
  | none => rw [hv] at h; simp at h
  | some r => simp [castVote, hv]

theorem castVote_of_absent_candidate {s : Store} {S c : String}
    (h : hasVoted s S = false) (hc : lookupDoc s.candidates c = none)
    (n : String) (p : Option String) (t : Nat) :
    castVote s S n c p t = (VoteResult.candidateNotFound, s) := by
  unfold hasVoted at h
  cases hv : lookupDoc s.voters S with
  | none => simp [castVote, hv, hc]
  | some r => rw [hv] at h; simp at h

theorem castVote_of_fresh {s : Store} {S c : String} {cr : CandidateRecord}
    (h : hasVoted s S = false) (hc : lookupDoc s.candidates c = some cr)
    (n : String) (p : Option String) (t : Nat) :
    castVote s S n c p t =
      (VoteResult.success,
        { voters := setDoc s.voters S ⟨n, c, p, t⟩,
          candidates := setDoc s.candidates c ⟨cr.name, cr.votes + 1⟩ }) := by
  unfold hasVoted at h
  cases hv : lookupDoc s.voters S with
  | none => simp [castVote, hv, hc]
  | some r => rw [hv] at h; simp at h

theorem castVote_abort_store_eq {s : Store} {S n c : String} {p : Option String} {t : Nat}
    (h : (castVote s S n c p t).1 ≠ VoteResult.success) :
    (castVote s S n c p t).2 = s := by
  cases hv : lookupDoc s.voters S with
  | some r => simp [castVote, hv]
  | none =>
    cases hc : lookupDoc s.candidates c with
    | none => simp [castVote, hv, hc]
    | some cr => exact absurd (by simp [castVote, hv, hc]) h

theorem castVote_success_of_fresh {s : Store} {S c : String} {cr : CandidateRecord}
    (h : hasVoted s S = false) (hc : lookupDoc s.candidates c = some cr)
    (n : String) (p : Option String) (t : Nat) :
    (castVote s S n c p t).1 = VoteResult.success := by
  rw [castVote_of_fresh h hc n p t]

theorem castVote_success_hasVoted {s : Store} {S n c : String} {p : Option String} {t : Nat}
    (h : (castVote s S n c p t).1 = VoteResult.success) :
    hasVoted s S = false ∧
      lookupDoc (castVote s S n c p t).2.voters S = some ⟨n, c, p, t⟩ := by
  cases hv : lookupDoc s.voters S with
  | some r => simp [castVote, hv] at h
  | none =>
    cases hc : lookupDoc s.candidates c with
    | none => simp [castVote, hv, hc] at h
    | some cr =>
      refine ⟨by simp [hasVoted, hv], ?_⟩
      simp [castVote, hv, hc, lookupDoc_setDoc_self]

theorem hasVoted_mono {s : Store} {S : String} (h : hasVoted s S = true)
    (S1 n c : String) (p : Option String) (t : Nat) :
    hasVoted (castVote s S1 n c p t).2 S = true := by
  cases hv : lookupDoc s.voters S1 with
  | some r => simp [castVote, hv, h]
  | none =>
    cases hc : lookupDoc s.candidates c with
    | none => simp [castVote, hv, hc, h]
    | some cr =>
      simp only [castVote, hv, hc, hasVoted]
      by_cases hS : S = S1
      · subst hS
        simp [lookupDoc_setDoc_self]
      · rw [lookupDoc_setDoc_ne _ _ _ _ hS]
        exact h

/-! Whole-trace lemmas: once a subject's record exists, no later call by
that subject can succeed, and any trace holds at most one success per
subject. -/

theorem runCalls_no_success_of_hasVoted {S : String} :
    ∀ (calls : List VoteCall) (s : Store), hasVoted s S = true →
      successesFor S (runCalls s calls).1 = 0 := by
  intro calls
  induction calls with
  | nil => intro s _; rfl
  | cons c rest ih =>
    intro s h
    have htail :
        hasVoted (castVote s c.subjectId c.nameField c.candidateId c.profile c.now).2 S
          = true := hasVoted_mono h _ _ _ _ _
    have hhead :
        isSuccessFor S
          (c, (castVote s c.subjectId c.nameField c.candidateId c.profile c.now).1)
          = false := by
      by_cases hs : c.subjectId = S
      · have hv : hasVoted s c.subjectId = true := by rw [hs]; exact h
        rw [isSuccessFor, castVote_of_hasVoted hv]
        simp
      · simp [isSuccessFor, hs]
    simp only [runCalls, successesFor, hhead, if_neg]
    simpa using ih _ htail

theorem runCalls_successesFor_le_one {S : String} :
    ∀ (calls : List VoteCall) (s : Store), successesFor S (runCalls s calls).1 ≤ 1 := by
  intro calls
  induction calls with
  | nil => intro s; exact Nat.zero_le 1
  | cons c rest ih =>
    intro s
    by_cases hh :
        isSuccessFor S
          (c, (castVote s c.subjectId c.nameField c.candidateId c.profile c.now).1)
          = true
    · have hs : c.subjectId = S := by
        have h2 := hh
        simp only [isSuccessFor, Bool.and_eq_true, decide_eq_true_eq] at h2
        exact h2.1
      subst hs
      have hres :
          (castVote s c.subjectId c.nameField c.candidateId c.profile c.now).1
            = VoteResult.success := by
        have h2 := hh
        simp only [isSuccessFor, Bool.and_eq_true, decide_eq_true_eq] at h2
        exact h2.2
      have hvoted :
          hasVoted (castVote s c.subjectId c.nameField c.candidateId c.profile c.now).2
            c.subjectId = true := by
        have h2 := (castVote_success_hasVoted hres).2
        simp [hasVoted, h2]
      simp only [runCalls, successesFor, hh, if_pos]
      have h0 := runCalls_no_success_of_hasVoted rest _ hvoted
      omega
    · simp only [runCalls, successesFor, hh, if_neg]
      simpa using ih (castVote s c.subjectId c.nameField c.candidateId c.profile c.now).2

/-! Single-step preservation facts about the candidates collection. -/

theorem castVote_candidates_keys (s : Store) (S n c : String) (p : Option String) (t : Nat) :
    (castVote s S n c p t).2.candidates.map Prod.fst = s.candidates.map Prod.fst := by
  cases hv : lookupDoc s.voters S with
  | some r => simp [castVote, hv]
  | none =>
    cases hc : lookupDoc s.candidates c with
    | none => simp [castVote, hv, hc]
    | some cr =>
      simp only [castVote, hv, hc]
      exact keys_setDoc_of_lookup_some _ _ _ _ hc

theorem castVote_candidates_lookup_mono {s : Store} (S n c : String) (p : Option String)
    (t : Nat) (k : String) (c0 : CandidateRecord)
    (h : lookupDoc s.candidates k = some c0) :
    ∃ c1, lookupDoc (castVote s S n c p t).2.candidates k = some c1 ∧
      c0.votes ≤ c1.votes := by
  cases hv : lookupDoc s.voters S with
  | some r => exact ⟨c0, by simp [castVote, hv, h], le_refl _⟩
  | none =>
    cases hc : lookupDoc s.candidates c with
    | none => exact ⟨c0, by simp [castVote, hv, hc, h], le_refl _⟩
    | some cr =>
      by_cases hk : k = c
      · subst hk
        rw [h] at hc
        injection hc with hc
        refine ⟨⟨c0.name, c0.votes + 1⟩, ?_, ?_⟩
        · simp only [castVote, hv, h, ← hc]
          exact lookupDoc_setDoc_self _ _ _
        · show c0.votes ≤ c0.votes + 1
          omega
      · refine ⟨c0, ?_, le_refl _⟩
        simp only [castVote, hv, hc]
        exact (lookupDoc_setDoc_ne _ _ _ _ hk).trans h

theorem castVote_candidates_nonneg {s : Store} (S n c : String) (p : Option String)
    (t : Nat) (h : ∀ e ∈ s.candidates, 0 ≤ e.2.votes) :
    ∀ e ∈ (castVote s S n c p t).2.candidates, 0 ≤ e.2.votes := by
  cases hv : lookupDoc s.voters S with
  | some r => simpa [castVote, hv] using h
  | none =>
    cases hc : lookupDoc s.candidates c with
    | none => simpa [castVote, hv, hc] using h
    | some cr =>
      intro e he
      simp only [castVote, hv, hc] at he
      rcases mem_setDoc he with he | he
      · subst he
        have hcr : 0 ≤ cr.votes := h _ (lookupDoc_mem hc)
        simpa using by omega
      · exact h e he

theorem castVote_voters_nodup {s : Store} (S n c : String) (p : Option String) (t : Nat)
    (h : (s.voters.map Prod.fst).Nodup) :
    ((castVote s S n c p t).2.voters.map Prod.fst).Nodup := by
  cases hv : lookupDoc s.voters S with
  | some r => simpa [castVote, hv] using h
  | none =>
    cases hc : lookupDoc s.candidates c with
    | none => simpa [castVote, hv, hc] using h
    | some cr =>
      simp only [castVote, hv, hc]
      exact keys_setDoc_nodup _ _ _ h

theorem listCandidates_keys (s : Store) :
    (listCandidates s).map Prod.fst = s.candidates.map Prod.fst := by
  simp only [listCandidates, List.map_map]
  rfl

theorem listCandidates_nonneg_iff (s : Store) :
    (∀ x ∈ listCandidates s, 0 ≤ x.2.2) ↔ (∀ e ∈ s.candidates, 0 ≤ e.2.votes) := by
  constructor
  · intro h e he
    exact h (e.1, e.2.name, e.2.votes) (List.mem_map.2 ⟨e, he, rfl⟩)
  · intro h x hx
    rcases List.mem_map.1 hx with ⟨e, he, rfl⟩
    exact h e he

/-! The claims. -/

/-- C1: for any voter subject `S`, at most one voter record keyed `S` ever
exists — the voter keys of every reachable store are duplicate-free when
the initial keys are — every successful `castVote` for `S` creates the
record keyed by `S`, and any subsequent `castVote` attempt by `S`, for any
candidate, is rejected with `alreadyVoted`; thus record existence and
having voted coincide on every reachable store. -/
theorem C1_voter_record_invariant (s0 s : Store)
    (h0 : (s0.voters.map Prod.fst).Nodup) (hr : Reachable s0 s) :
    (s.voters.map Prod.fst).Nodup ∧
    (∀ S n c p t, (castVote s S n c p t).1 = VoteResult.success →
      lookupDoc (castVote s S n c p t).2.voters S = some ⟨n, c, p, t⟩) ∧
    (∀ S, hasVoted s S = true →
      ∀ n c p t, castVote s S n c p t = (VoteResult.alreadyVoted, s)) := by
  refine ⟨?_, ?_, ?_⟩
  · induction hr with
    | refl => exact h0
    | tail hab hbc ih =>
      cases hbc with
      | vote subjectId nameField candidateId profile now =>
        exact castVote_voters_nodup _ _ _ _ _ ih
  · intro S n c p t hsucc
    exact (castVote_success_hasVoted hsucc).2
  · intro S hS n c p t
    exact castVote_of_hasVoted hS n c p t

/-- Witness for C1 at the seed store and the store reached by one vote. -/
theorem C1_voter_record_invariant_witness :
    (votedStore.voters.map Prod.fst).Nodup ∧
    castVote votedStore "u1" "User One" "B" none 1 =
      (VoteResult.alreadyVoted, votedStore) := by
  have h := C1_voter_record_invariant seedStore votedStore (by decide)
    (Relation.ReflTransGen.single (Step.vote seedStore "u1" "User One" "A" none 0))
  exact ⟨h.1, h.2.2 "u1" (by decide) "User One" "B" none 1⟩

/-- C2: the transaction proceeds in order — an existing voter record aborts
with `alreadyVoted` before the candidate is consulted (so a subject who
already voted gets `alreadyVoted` even for an absent candidate), an absent
candidate then aborts with `candidateNotFound`, and otherwise the voter
record carrying the name, candidate id, profile reference and
server-assigned timestamp is created while the candidate's count rises by
exactly 1, both writes committed together. -/
theorem C2_castVote_algorithm (s : Store) (S n c : String) (p : Option String) (t : Nat) :
    (hasVoted s S = true → castVote s S n c p t = (VoteResult.alreadyVoted, s)) ∧
    (hasVoted s S = false → lookupDoc s.candidates c = none →
      castVote s S n c p t = (VoteResult.candidateNotFound, s)) ∧
    (∀ cr, hasVoted s S = false → lookupDoc s.candidates c = some cr →
      castVote s S n c p t =
        (VoteResult.success,
          { voters := setDoc s.voters S ⟨n, c, p, t⟩,
            candidates := setDoc s.candidates c ⟨cr.name, cr.votes + 1⟩ }) ∧
      lookupDoc (castVote s S n c p t).2.voters S = some ⟨n, c, p, t⟩ ∧
      lookupDoc (castVote s S n c p t).2.candidates c = some ⟨cr.name, cr.votes + 1⟩) := by
  refine ⟨fun h => castVote_of_hasVoted h n c p t,
          fun h hc => castVote_of_absent_candidate h hc n p t,
          fun cr h hc => ?_⟩
  have he := castVote_of_fresh h hc n p t
  refine ⟨he, ?_, ?_⟩
  · rw [he]
    exact lookupDoc_setDoc_self _ _ _
  · rw [he]
    exact lookupDoc_setDoc_self _ _ _

/-- Witness for C2: all three branches at concrete stores. -/
theorem C2_castVote_algorithm_witness :
    castVote votedStore "u1" "X" "ZZ" none 5 = (VoteResult.alreadyVoted, votedStore) ∧
    castVote votedStore "u2" "X" "ZZ" none 5 = (VoteResult.candidateNotFound, votedStore) ∧
    lookupDoc (castVote votedStore "u2" "X" "B" none 5).2.candidates "B" =
      some ⟨"Bob", 1⟩ := by
  refine ⟨(C2_castVote_algorithm votedStore "u1" "X" "ZZ" none 5).1 (by decide),
          (C2_castVote_algorithm votedStore "u2" "X" "ZZ" none 5).2.1 (by decide) (by decide),
          ?_⟩
  have h := (C2_castVote_algorithm votedStore "u2" "X" "B" none 5).2.2 ⟨"Bob", 0⟩
    (by decide) (by decide)
  exact h.2.2

/-- C3: when subject `S` has not voted and candidate `c1` exists, the first
`castVote` succeeds and a second call by the same `S`, for any candidate,
is rejected with `alreadyVoted` leaving the store as after the first call;
the voted-for candidate's count rose by exactly 1, not 2; and in any
serialized trace of `castVote` steps — the concurrent reading — subject `S`
accounts for at most one success. -/
theorem C3_double_vote (s : Store) (S n1 n2 c1 c2 : String) (p1 p2 : Option String)
    (t1 t2 : Nat) (cr : CandidateRecord)
    (h1 : hasVoted s S = false) (h2 : lookupDoc s.candidates c1 = some cr) :
    (castVote s S n1 c1 p1 t1).1 = VoteResult.success ∧
    castVote (castVote s S n1 c1 p1 t1).2 S n2 c2 p2 t2 =
      (VoteResult.alreadyVoted, (castVote s S n1 c1 p1 t1).2) ∧
    lookupDoc (castVote s S n1 c1 p1 t1).2.candidates c1 =
      some ⟨cr.name, cr.votes + 1⟩ ∧
    (∀ calls, successesFor S (runCalls s calls).1 ≤ 1) := by
  have he := castVote_of_fresh h1 h2 n1 p1 t1
  have hsucc : (castVote s S n1 c1 p1 t1).1 = VoteResult.success := by rw [he]
  have hv2 : hasVoted (castVote s S n1 c1 p1 t1).2 S = true := by
    have h3 := (castVote_success_hasVoted hsucc).2
    simp [hasVoted, h3]
  refine ⟨hsucc, castVote_of_hasVoted hv2 n2 c2 p2 t2, ?_,
          fun calls => runCalls_successesFor_le_one calls s⟩
  rw [he]
  exact lookupDoc_setDoc_self _ _ _

/-- Witness for C3 on the spec's scenario store. -/
theorem C3_double_vote_witness :
    (castVote seedStore "u1" "User One" "A" none 0).1 = VoteResult.success ∧
    castVote votedStore "u1" "User One" "B" none 1 =
      (VoteResult.alreadyVoted, votedStore) ∧
    successesFor "u1" (runCalls seedStore
      [⟨"u1", "User One", "A", none, 0⟩, ⟨"u1", "User One", "B", none, 1⟩]).1 ≤ 1 := by
  have h := C3_double_vote seedStore "u1" "User One" "User One" "A" "B" none none 0 1
    ⟨"Alice", 0⟩ (by decide) (by decide)
  exact ⟨h.1, h.2.1, h.2.2.2 _⟩

/-- C4 counterexample: candidate `ZZ` is absent from `votedStore`, yet the
vote attempt by `u1`, who has already voted, is rejected with
`alreadyVoted`, not `candidateNotFound` — the voter check runs first, so
the claim's `for every subject S` fails. -/
theorem C4_absent_candidate_cex :
    lookupDoc votedStore.candidates "ZZ" = none ∧
    (castVote votedStore "u1" "X" "ZZ" none 1).1 ≠ VoteResult.candidateNotFound := by
  decide

/-- C4 amended: for every subject `S` that has not already voted and every
candidate id `c` not present in the store, `castVote` returns
`candidateNotFound` and leaves the store unchanged; and every abort path —
any non-success result — produces zero persistent side effects. -/
theorem C4_abort_no_side_effects (s : Store) (S n c : String) (p : Option String)
    (t : Nat) :
    (hasVoted s S = false → lookupDoc s.candidates c = none →
      castVote s S n c p t = (VoteResult.candidateNotFound, s)) ∧
    ((castVote s S n c p t).1 ≠ VoteResult.success → (castVote s S n c p t).2 = s) :=
  ⟨fun h hc => castVote_of_absent_candidate h hc n p t,
   fun h => castVote_abort_store_eq h⟩

/-- Witness for C4's amended statement. -/
theorem C4_abort_no_side_effects_witness :
    castVote seedStore "u2" "X" "ZZ" none 7 = (VoteResult.candidateNotFound, seedStore) ∧
    (castVote votedStore "u1" "X" "B" none 7).2 = votedStore :=
  ⟨(C4_abort_no_side_effects seedStore "u2" "X" "ZZ" none 7).1 (by decide) (by decide),
   (C4_abort_no_side_effects votedStore "u1" "X" "B" none 7).2 (by decide)⟩

/-- C5 counterexample: a non-domain store failure reaching the vote route's
catch is answered with status 400 carrying the raw error message — not 500
with a generic message — and the candidates route's 500 body embeds the
internal error message verbatim. -/
theorem C5_error_translation_cex :
    isDomainRejection ⟨"Firestore deadline exceeded"⟩ = false ∧
    (voteErrorResponse ⟨"Firestore deadline exceeded"⟩).status = 400 ∧
    (voteErrorResponse ⟨"Firestore deadline exceeded"⟩).message =
      "Firestore deadline exceeded" ∧
    (candidatesErrorResponse ⟨"Firestore deadline exceeded"⟩).error =
      "Firestore deadline exceeded" := by
  decide

/-- C5 amended: every error caught by the vote route — the two domain
rejections and any other exception alike — is translated to HTTP 400 with
the error's message (`Voting failed` when that message is empty), and the
two read routes translate failures to HTTP 500 with a fixed headline
message while exposing the internal error message in the body's `error`
field. -/
theorem C5_error_translation (e : JsError) :
    (voteErrorResponse e).status = 400 ∧
    (voteErrorResponse e).message =
      (if e.message = "" then "Voting failed" else e.message) ∧
    candidatesErrorResponse e = ⟨500, "Error fetching candidates", e.message⟩ ∧
    votersErrorResponse e = ⟨500, "Error fetching voters", e.message⟩ := by
  refine ⟨rfl, ?_, rfl, rfl⟩
  simp [voteErrorResponse, jsStringOr]

/-- C6: a `POST /api/vote` without a bearer credential — the Authorization
header missing, or one not starting with `Bearer ` — is answered 401 and
causes no store mutation: neither a voter record nor any candidate count is
touched. -/
theorem C6_missing_bearer (verify : String → Option AuthToken) (authHeader : Option String)
    (bodyCandidateId bodyLinkedInProfile : Option String) (s : Store) (t : Nat)
    (h : authHeader = none ∨ ∃ hd, authHeader = some hd ∧ bearerOk hd = false) :
    (handleVote verify authHeader bodyCandidateId bodyLinkedInProfile s t).1.status = 401 ∧
    (handleVote verify authHeader bodyCandidateId bodyLinkedInProfile s t).2 = s := by
  rcases h with h | ⟨hd, rfl, hb⟩
  · subst h
    exact ⟨rfl, rfl⟩
  · simp [handleVote, hb]

/-- Witness for C6 with a malformed (non-bearer) Authorization header. -/
theorem C6_missing_bearer_witness :
    (handleVote (fun _ => none) (some "Token abc") (some "A") none seedStore 0).1.status
      = 401 ∧
    (handleVote (fun _ => none) (some "Token abc") (some "A") none seedStore 0).2
      = seedStore :=
  C6_missing_bearer (fun _ => none) (some "Token abc") (some "A") none seedStore 0
    (Or.inr ⟨"Token abc", rfl, by decide⟩)

/-- C7: a `POST /make-admin` by an authenticated subject whose token lacks
the admin claim is answered 403 and the identity provider's claim table is
unchanged — the claim-granting write is never reached. -/
theorem C7_make_admin_forbidden (verify : String → Option AuthToken) (hd : String)
    (bodyUid : Option String) (claims : List (String × Bool)) (u : AuthToken)
    (hb : bearerOk hd = true) (hv : verify (bearerToken hd) = some u)
    (ha : u.admin = false) :
    handleMakeAdmin verify (some hd) bodyUid claims =
      (⟨403, "Access denied (Admin only)"⟩, claims) := by
  simp [handleMakeAdmin, hb, hv, ha]

/-- Witness for C7 with a concrete non-admin token. -/
theorem C7_make_admin_forbidden_witness :
    handleMakeAdmin (fun _ => some ⟨"u1", none, false⟩) (some "Bearer tok") (some "u2")
        [("root", true)] =
      (⟨403, "Access denied (Admin only)"⟩, [("root", true)]) :=
  C7_make_admin_forbidden (fun _ => some ⟨"u1", none, false⟩) "Bearer tok" (some "u2")
    [("root", true)] ⟨"u1", none, false⟩ (by decide) rfl rfl

/-- C8: along every reachable sequence of operations each seeded
candidate's count never decreases, the id column `listCandidates` reports
is exactly the seeded one — no candidate is ever created or deleted — and
when the seeded counts are non-negative every count `listCandidates`
returns is a non-negative integer. -/
theorem C8_candidates_monotone (s0 s : Store) (hr : Reachable s0 s) :
    (∀ k c0, lookupDoc s0.candidates k = some c0 →
      ∃ c1, lookupDoc s.candidates k = some c1 ∧ c0.votes ≤ c1.votes) ∧
    (listCandidates s).map Prod.fst = s0.candidates.map Prod.fst ∧
    ((∀ e ∈ s0.candidates, 0 ≤ e.2.votes) → ∀ x ∈ listCandidates s, 0 ≤ x.2.2) := by
  induction hr with
  | refl =>
    exact ⟨fun k c0 h => ⟨c0, h, le_refl _⟩, listCandidates_keys s0,
           fun h => (listCandidates_nonneg_iff s0).2 h⟩
  | tail hab hbc ih =>
    cases hbc with
    | vote subjectId nameField candidateId profile now =>
      refine ⟨?_, ?_, ?_⟩
      · intro k c0 h
        rcases ih.1 k c0 h with ⟨c1, hc1, hle1⟩
        rcases castVote_candidates_lookup_mono subjectId nameField candidateId profile
          now k c1 hc1 with ⟨c2, hc2, hle2⟩
        exact ⟨c2, hc2, le_trans hle1 hle2⟩
      · rw [listCandidates_keys, castVote_candidates_keys]
        rw [listCandidates_keys] at ih
        exact ih.2.1
      · intro h
        refine (listCandidates_nonneg_iff _).2 ?_
        exact castVote_candidates_nonneg _ _ _ _ _ ((listCandidates_nonneg_iff _).1 (ih.2.2 h))

/-- Witness for C8 after one successful vote from the seed store. -/
theorem C8_candidates_monotone_witness :
    (listCandidates votedStore).map Prod.fst = seedStore.candidates.map Prod.fst ∧
    (0 : Int) ≤ 1 := by
  have h := C8_candidates_monotone seedStore votedStore
    (Relation.ReflTransGen.single (Step.vote seedStore "u1" "User One" "A" none 0))
  exact ⟨h.2.1, h.2.2 (by decide) ("A", "Alice", (1 : Int)) (by decide)⟩

/-- A verifier issuing a token whose displayName claim is the empty string. -/
def emptyNameVerify : String → Option AuthToken :=
  fun _ => some ⟨"u9", some "", false⟩

/-- C9 counterexample: the token carries a displayName — the empty string,
which is not a missing claim — yet the stored voter record's name is the
fallback `Anonymous`, because the code uses JavaScript falsiness
(`displayName || "Anonymous"`), not a missing-field test. -/
theorem C9_name_default_cex :
    emptyNameVerify (bearerToken "Bearer t") = some ⟨"u9", some "", false⟩ ∧
    lookupDoc (handleVote emptyNameVerify (some "Bearer t") (some "A") none
        seedStore 0).2.voters "u9" =
      some ⟨"Anonymous", "A", none, 0⟩ ∧
    ("Anonymous" : String) ≠ "" := by
  decide

/-- C9 amended: on a successful vote the stored name is the token's
displayName when that claim is present and non-empty, and the literal
`Anonymous` when the claim is missing or the empty string; the stored
linkedInProfile is null whenever the request body omits the field. -/
theorem C9_stored_defaults (verify : String → Option AuthToken) (hd : String)
    (u : AuthToken) (cid : String) (lip : Option String) (s : Store) (t : Nat)
    (cr : CandidateRecord)
    (hb : bearerOk hd = true) (hv : verify (bearerToken hd) = some u)
    (hcid : cid ≠ "") (hnv : hasVoted s u.uid = false)
    (hc : lookupDoc s.candidates cid = some cr) :
    (∀ d, u.displayName = some d → d ≠ "" →
      lookupDoc (handleVote verify (some hd) (some cid) lip s t).2.voters u.uid =
        some ⟨d, cid, jsProfileOrNull lip, t⟩) ∧
    (u.displayName = none ∨ u.displayName = some "" →
      lookupDoc (handleVote verify (some hd) (some cid) lip s t).2.voters u.uid =
        some ⟨"Anonymous", cid, jsProfileOrNull lip, t⟩) ∧
    (lip = none →
      lookupDoc (handleVote verify (some hd) (some cid) lip s t).2.voters u.uid =
        some ⟨jsStringOr u.displayName "Anonymous", cid, none, t⟩) := by
  have hvs : (handleVote verify (some hd) (some cid) lip s t).2.voters =
      setDoc s.voters u.uid
        ⟨jsStringOr u.displayName "Anonymous", cid, jsProfileOrNull lip, t⟩ := by
    have he := castVote_of_fresh hnv hc (jsStringOr u.displayName "Anonymous")
      (jsProfileOrNull lip) t
    simp [handleVote, hb, hv, hcid, he]
  refine ⟨?_, ?_, ?_⟩
  · intro d hdname hne
    rw [hvs, hdname]
    simp only [jsStringOr, if_neg hne]
    exact lookupDoc_setDoc_self _ _ _
  · intro hcase
    rw [hvs]
    rcases hcase with hcase | hcase <;> rw [hcase] <;>
      simpa [jsStringOr] using lookupDoc_setDoc_self s.voters u.uid
        ⟨"Anonymous", cid, jsProfileOrNull lip, t⟩
  · intro hlip
    rw [hvs, hlip]
    exact lookupDoc_setDoc_self _ _ _

/-- Witness for C9's amended statement with a concrete named token. -/
theorem C9_stored_defaults_witness :
    lookupDoc (handleVote (fun _ => some ⟨"u3", some "Jane Doe", false⟩)
        (some "Bearer t") (some "A") none seedStore 4).2.voters "u3" =
      some ⟨"Jane Doe", "A", none, 4⟩ := by
  have h := C9_stored_defaults (fun _ => some ⟨"u3", some "Jane Doe", false⟩) "Bearer t"
    ⟨"u3", some "Jane Doe", false⟩ "A" none seedStore 4 ⟨"Alice", 0⟩
    (by decide) rfl (by decide) (by decide) (by decide)
  exact h.1 "Jane Doe" rfl (by decide)

/-- C10: a vote request whose body carries `candidateId` equal to the empty
string — not merely a missing field — is rejected 400 `Candidate ID
required` with the store returned unchanged, before the voting transaction
runs: the JavaScript falsiness check does not distinguish absent from
empty. -/
theorem C10_empty_candidate_id (verify : String → Option AuthToken) (hd : String)
    (u : AuthToken) (lip : Option String) (s : Store) (t : Nat)
    (hb : bearerOk hd = true) (hv : verify (bearerToken hd) = some u) :
    handleVote verify (some hd) (some "") lip s t =
      (⟨400, "Candidate ID required"⟩, s) := by
  simp [handleVote, hb, hv]

/-- Witness for C10 with a fully authenticated request. -/
theorem C10_empty_candidate_id_witness :
    handleVote (fun _ => some ⟨"u1", none, false⟩) (some "Bearer t") (some "") none
        seedStore 0 =
      (⟨400, "Candidate ID required"⟩, seedStore) :=
  C10_empty_candidate_id (fun _ => some ⟨"u1", none, false⟩) "Bearer t"
    ⟨"u1", none, false⟩ none seedStore 0 (by decide) rfl

end Voting
